import Mathlib

/-!
Verification development for the Isida Telegram chat-bot
(`isida_bot.py`, `main.py`).  The Python source is shallowly embedded:
pure fragments become Lean functions, the per-user game-session state
machines become explicit state-passing functions, and the persistence
layer becomes functions between an in-memory snapshot type and a model
of each durable backend.  Randomness (`random.choice`,
`random.randint`, ...) is modelled by passing the drawn value as an
explicit argument.
-/

namespace Isida

/-! ## Python string primitives

Models of the Python `str` operations the bot uses, restricted to the
alphabets that actually occur in the program (ASCII and Cyrillic). -/

/-- Model of Python `str.lower` on a single character, covering ASCII
`A`-`Z` and Cyrillic `А`-`Я` / `Ё` (the only cased letters appearing in
the source). -/
def pyLowerChar (c : Char) : Char :=
  if 'A'.toNat ≤ c.toNat ∧ c.toNat ≤ 'Z'.toNat then Char.ofNat (c.toNat + 32)
  else if 'А'.toNat ≤ c.toNat ∧ c.toNat ≤ 'Я'.toNat then Char.ofNat (c.toNat + 32)
  else if c = 'Ё' then 'ё'
  else c

/-- Model of Python `str.lower`. -/
def pyLower (s : String) : String :=
  ⟨s.data.map pyLowerChar⟩

/-- Model of Python whitespace (`\s`, `str.strip`), restricted to the
four common whitespace characters. -/
def pyIsSpaceB (c : Char) : Bool :=
  c == ' ' || c == '\t' || c == '\n' || c == '\r'

/-- Model of Python `str.strip`. -/
def pyStrip (s : String) : String :=
  ⟨((s.data.dropWhile pyIsSpaceB).reverse.dropWhile pyIsSpaceB).reverse⟩

/-- Model of Python `str.isalpha` on one character, covering ASCII and
Cyrillic letters (the alphabets of the bot's word lists). -/
def pyIsAlphaChar (c : Char) : Bool :=
  ('a'.toNat ≤ c.toNat && c.toNat ≤ 'z'.toNat) ||
  ('A'.toNat ≤ c.toNat && c.toNat ≤ 'Z'.toNat) ||
  ('а'.toNat ≤ c.toNat && c.toNat ≤ 'я'.toNat) ||
  ('А'.toNat ≤ c.toNat && c.toNat ≤ 'Я'.toNat) ||
  c == 'ё' || c == 'Ё'

/-- Model of Python `str.isalpha` (empty string is not alphabetic). -/
def pyIsAlphaStr (s : String) : Bool :=
  !s.data.isEmpty && s.data.all pyIsAlphaChar

/-- Substring search over character lists (helper for Python `in`). -/
def listContainsSub (needle : List Char) : List Char → Bool
  | [] => needle.isEmpty
  | c :: rest => needle.isPrefixOf (c :: rest) || listContainsSub needle rest

/-- Model of the Python substring test `needle in hay`. -/
def pyInStr (needle hay : String) : Bool :=
  listContainsSub needle.data hay.data

/-- Digit-string evaluation (helper for Python `int`). -/
def digitsVal : List Char → Nat → Option Nat
  | [], acc => some acc
  | c :: rest, acc =>
    if c.isDigit then digitsVal rest (acc * 10 + (c.toNat - '0'.toNat)) else none

/-- Model of Python `int(s)`: surrounding whitespace is ignored, an
optional single sign precedes a nonempty run of decimal digits;
anything else raises `ValueError`, modelled as `none`. -/
def pyParseInt (s : String) : Option Int :=
  match (pyStrip s).data with
  | '+' :: rest =>
    if rest.isEmpty then none else (digitsVal rest 0).map Int.ofNat
  | '-' :: rest =>
    if rest.isEmpty then none else (digitsVal rest 0).map (fun n => -(n : Int))
  | rest =>
    if rest.isEmpty then none else (digitsVal rest 0).map Int.ofNat

/-- Left-to-right non-overlapping removal of a pattern, with fuel
(helper for Python `str.replace(pat, "")`). -/
def removeOccAux (pat : List Char) : Nat → List Char → List Char
  | 0, l => l
  | _ + 1, [] => []
  | fuel + 1, c :: rest =>
    if pat.isPrefixOf (c :: rest) then removeOccAux pat fuel (List.drop pat.length (c :: rest))
    else c :: removeOccAux pat fuel rest

/-- Model of Python `s.replace(pat, "")` for a nonempty pattern. -/
def pyRemoveAll (pat : String) (s : String) : String :=
  if pat.data.isEmpty then s else ⟨removeOccAux pat.data s.data.length s.data⟩

/-- First character of a string; total, with an unused default (every
call site in the embedding guards against the empty string, as the
source does via Python truthiness checks). -/
def strFirst (s : String) : Char :=
  s.data.headD '?'

/-- Last character of a string (Python `s[-1]`); total, with an unused
default, as for `strFirst`. -/
def strLast (s : String) : Char :=
  s.data.getLastD '?'

/-- Python `set.add` on a duplicate-free list representation of a set. -/
def setAdd [DecidableEq α] (l : List α) (x : α) : List α :=
  if x ∈ l then l else l ++ [x]

/-- Python dict assignment `d[k] = v` on an insertion-ordered
association-list representation: overwrite in place if the key exists,
append otherwise. -/
def dictSet [DecidableEq κ] (l : List (κ × β)) (k : κ) (v : β) : List (κ × β) :=
  if l.any (fun p => p.1 = k) then l.map (fun p => if p.1 = k then (k, v) else p)
  else l ++ [(k, v)]

/-- Python list indexing `l[i]` on a list of strings: negative indices
count from the end, an out-of-range index raises `IndexError`,
modelled as `none`. -/
def pyListGetItem (l : List String) (i : Int) : Option String :=
  let j := if i < 0 then i + l.length else i
  if 0 ≤ j ∧ j < (l.length : Int) then l.get? j.toNat else none

/-! ## Game session state (the `active_games` entries)

Each game keeps one dictionary per `(user, kind)` key in
`self.active_games`; those dictionaries become one structure per game.
Each command model returns the reply, the session slot after the call
(`none` models `del self.active_games[game_id]` or no session), and
the `stats["games_played"]` counter after the call. -/

/-- The `{'last_city', 'used_cities', 'player_turn'}` dictionary of
`cmd_game_cities`. -/
structure CitiesState where
  last_city : String
  used_cities : List String
  player_turn : Bool
deriving DecidableEq

/-- The `{'word', 'guessed', 'attempts', 'used_letters'}` dictionary of
`cmd_game_hangman`; `guessed` uses the source's underscore placeholder
for blanks. -/
structure HangmanState where
  word : List Char
  guessed : List Char
  attempts : Int
  used_letters : List Char
deriving DecidableEq

/-- The `{'number', 'attempts'}` dictionary of `cmd_game_guess`. -/
structure GuessState where
  number : Int
  attempts : Int
deriving DecidableEq

/-- The `{'question', 'answer'}` dictionary of `cmd_game_riddle`. -/
structure RiddleState where
  question : String
  answer : String
deriving DecidableEq

/-- The `cities_db` dictionary of `_find_city`. -/
def citiesDb : List (Char × List String) :=
  [('а', ["архангельск", "астрахань"]), ('м', ["москва", "мурманск"])]

/-- All city names occurring in `cities_db` (for stating the
win-condition of the cities game). -/
def allDbCities : List String :=
  ["архангельск", "астрахань", "москва", "мурманск"]

/-- `_find_city`: first city of `cities_db[letter]` not yet used,
`None` when the letter is absent or all its cities are used. -/
def find_city (letter : Char) (used : List String) : Option String :=
  match citiesDb.lookup letter with
  | some cities => cities.find? (fun c => !(used.contains c))
  | none => none

/-- Replies of `cmd_game_cities`, one constructor per `message.answer`
text of the source. -/
inductive CitiesReply
  | alreadyUsed
  | needLetter (required : Char)
  | botMove (userCity : String) (nextCity : String) (nextLetter : Char)
  | playerWins (userCity : String)
  | started (firstCity : String) (letter : Char)
deriving DecidableEq

/-- The fresh-session branch at the end of `cmd_game_cities`
(`firstPick` models `random.choice(["москва", "астана"])`). -/
def citiesStart (firstPick : String) (gp : Nat) :
    CitiesReply × Option CitiesState × Nat :=
  (.started firstPick (strLast firstPick), some ⟨firstPick, [firstPick], true⟩, gp + 1)

/-- `cmd_game_cities`: `st` is the `active_games` slot for this user,
`userCity` is `message.text.split()[1]` (or `""` when absent), `gp` is
`stats["games_played"]`. -/
def cmd_game_cities (st : Option CitiesState) (userCity : String)
    (firstPick : String) (gp : Nat) : CitiesReply × Option CitiesState × Nat :=
  match st with
  | some game =>
    if userCity ≠ "" then
      let ucl := pyLower userCity
      if ucl ∈ game.used_cities then (.alreadyUsed, some game, gp)
      else if game.last_city ≠ "" ∧ strFirst ucl ≠ strLast game.last_city then
        (.needLetter (strLast game.last_city), some game, gp)
      else
        let used1 := setAdd game.used_cities ucl
        match find_city (strLast ucl) used1 with
        | some next =>
          (.botMove userCity next (strLast next), some ⟨next, setAdd used1 next, false⟩, gp)
        | none => (.playerWins userCity, none, gp)
    else citiesStart firstPick gp
  | none => citiesStart firstPick gp

/-- The two-element `stages` list of `_draw_hangman`, exactly as in the
source. -/
def hangmanStages : List String :=
  ["------\n|    |\n|\n|\n|\n|\n--------", "------\n|    |\n|    O\n|\n|\n|\n--------"]

/-- `_draw_hangman`: `stages[6 - attempts]` with Python list-indexing
semantics (`none` models an uncaught `IndexError`). -/
def draw_hangman (attempts : Int) : Option String :=
  pyListGetItem hangmanStages (6 - attempts)

/-- Replies of `cmd_game_hangman`, one constructor per `message.answer`
text of the source. -/
inductive HangmanReply
  | oneLetterPlease
  | letterWasUsed (letter : Char)
  | win (word : List Char)
  | lose (word : List Char)
  | progress (st : HangmanState)
  | started (word : List Char)
deriving DecidableEq

/-- The non-terminal reply text of `cmd_game_hangman` embeds
`self._draw_hangman(attempts)`; rendering it is therefore partial
(`none` models the `IndexError` escaping `_draw_hangman`). -/
def hangmanProgressText (st : HangmanState) : Option String :=
  (draw_hangman st.attempts).map
    (fun pic => pic ++ "\n" ++ String.mk st.guessed ++ "\n" ++ toString st.attempts)

/-- The reveal loop of `cmd_game_hangman`
(`for i, char in enumerate(word): if char == letter: guessed[i] = letter`). -/
def hangmanReveal (game : HangmanState) (lc : Char) : List Char :=
  List.zipWith (fun w g => if w = lc then lc else g) game.word game.guessed

/-- The fresh-session branch at the end of `cmd_game_hangman`
(`pickWord` models `random.choice(words)`). -/
def hangmanStart (pickWord : List Char) (gp : Nat) :
    HangmanReply × Option HangmanState × Nat :=
  (.started pickWord, some ⟨pickWord, List.replicate pickWord.length '_', 6, []⟩, gp + 1)

/-- `cmd_game_hangman`: `arg` is `message.text.split()[1]` when present. -/
def cmd_game_hangman (st : Option HangmanState) (arg : Option String)
    (pickWord : List Char) (gp : Nat) : HangmanReply × Option HangmanState × Nat :=
  match st, arg with
  | some game, some tok =>
    let letter := pyLower tok
    if letter.length ≠ 1 ∨ pyIsAlphaStr letter = false then
      (.oneLetterPlease, some game, gp)
    else
      let lc := strFirst letter
      if lc ∈ game.used_letters then (.letterWasUsed lc, some game, gp)
      else
        let used := setAdd game.used_letters lc
        let guessed := if lc ∈ game.word then hangmanReveal game lc else game.guessed
        let attempts := if lc ∈ game.word then game.attempts else game.attempts - 1
        if '_' ∉ guessed then (.win game.word, none, gp)
        else if attempts ≤ 0 then (.lose game.word, none, gp)
        else (.progress ⟨game.word, guessed, attempts, used⟩,
              some ⟨game.word, guessed, attempts, used⟩, gp)
  | some _, none => hangmanStart pickWord gp
  | none, _ => hangmanStart pickWord gp

/-- Replies of `cmd_game_guess`; `hintHigher` renders the source's
"больше" hint, `hintLower` its "меньше" hint. -/
inductive GuessReply
  | pleaseNumber
  | correct (number : Int) (attempts : Int)
  | hintHigher (attempts : Int)
  | hintLower (attempts : Int)
  | started
deriving DecidableEq

/-- The fresh-session branch at the end of `cmd_game_guess`
(`pickNumber` models `random.randint(1, 100)`). -/
def guessStart (pickNumber : Int) (gp : Nat) :
    GuessReply × Option GuessState × Nat :=
  (.started, some ⟨pickNumber, 0⟩, gp + 1)

/-- `cmd_game_guess`: `arg` is `message.text.split()[1]` when present,
parsed with `int(...)`. -/
def cmd_game_guess (st : Option GuessState) (arg : Option String)
    (pickNumber : Int) (gp : Nat) : GuessReply × Option GuessState × Nat :=
  match st, arg with
  | some game, some tok =>
    match pyParseInt tok with
    | none => (.pleaseNumber, some game, gp)
    | some guess =>
      let attempts := game.attempts + 1
      if guess = game.number then (.correct game.number attempts, none, gp)
      else if guess < game.number then
        (.hintHigher attempts, some ⟨game.number, attempts⟩, gp)
      else (.hintLower attempts, some ⟨game.number, attempts⟩, gp)
  | some _, none => guessStart pickNumber gp
  | none, _ => guessStart pickNumber gp

/-- The `self.riddles` list of `_load_riddles`. -/
def riddlesDb : List RiddleState :=
  [⟨"Висит груша — нельзя скушать. Что это?", "лампочка"⟩,
   ⟨"Зимой и летом одним цветом?", "ель"⟩,
   ⟨"Сидит дед во сто шуб одет. Кто его раздевает, тот слезы проливает?", "лук"⟩,
   ⟨"Не лает, не кусает, а в дом не пускает?", "замок"⟩,
   ⟨"Два конца, два кольца, посередине гвоздик?", "ножницы"⟩]

/-- The failure hint of `cmd_game_riddle`:
`correct_answer[0] + "*" * (len(correct_answer) - 1)`. -/
def riddleHint (answer : String) : String :=
  ⟨strFirst answer :: List.replicate (answer.length - 1) '*'⟩

/-- Replies of `cmd_game_riddle`, one constructor per `message.answer`
text of the source. -/
inductive RiddleReply
  | correct (question answer : String)
  | wrongHint (hint : String)
  | started (question : String)
deriving DecidableEq

/-- The fresh-session branch at the end of `cmd_game_riddle`
(`pickRiddle` models `random.choice(self.riddles)`). -/
def riddleStart (pickRiddle : RiddleState) (gp : Nat) :
    RiddleReply × Option RiddleState × Nat :=
  (.started pickRiddle.question, some pickRiddle, gp + 1)

/-- `cmd_game_riddle`: `userAnswer` is
`" ".join(message.text.split()[1:])` (so `""` when no argument). -/
def cmd_game_riddle (st : Option RiddleState) (userAnswer : String)
    (pickRiddle : RiddleState) (gp : Nat) : RiddleReply × Option RiddleState × Nat :=
  match st with
  | some game =>
    if userAnswer ≠ "" then
      if pyLower userAnswer = pyLower game.answer then
        (.correct game.question game.answer, none, gp)
      else (.wrongHint (riddleHint game.answer), some game, gp)
    else riddleStart pickRiddle gp
  | none => riddleStart pickRiddle gp

/-! ## The teach directive (`_process_learn_command`)

The source parses `учись <question> -> <answer>` with the anchored
regex `учись\s+(.+?)\s*->\s*(.+)` under `IGNORECASE | DOTALL` and
strips both groups.  With backtracking this matches exactly when the
keyword is followed by a whitespace character, an arrow `->` starts at
least two characters later, and at least one character follows the
arrow; the stripped question is then the stripped text between the
keyword and the first such arrow, and the stripped answer is the
stripped remainder. -/

/-- Split at the first `->` that is followed by at least one character,
returning the text before the arrow and the text after it (the lazy
`(.+?)` / greedy `(.+)` behaviour of the source regex). -/
def arrowSplit : List Char → Option (List Char × List Char)
  | '-' :: '>' :: a :: rest => some ([], a :: rest)
  | c :: rest => (arrowSplit rest).map (fun qa => (c :: qa.1, qa.2))
  | [] => none

/-- The parse of the `учись` regex: `none` models a failed
`re.match`, `some (question, answer)` the two stripped groups. -/
def learnParse (text : String) : Option (String × String) :=
  match text.data with
  | k1 :: k2 :: k3 :: k4 :: k5 :: r0 :: r1 :: tl =>
    if ([k1, k2, k3, k4, k5].map pyLowerChar = ['у', 'ч', 'и', 'с', 'ь'])
        ∧ pyIsSpaceB r0 then
      match arrowSplit tl with
      | some (q, a) => some (pyStrip ⟨r0 :: r1 :: q⟩, pyStrip ⟨a⟩)
      | none => none
    else none
  | _ => none

/-- The `learned_responses` store: a lower-cased question mapped to its
taught answers, as an insertion-ordered association list (Python
`defaultdict(list)`). -/
abbrev LearnedStore := List (String × List String)

/-- The mutation of `_process_learn_command` on success: create the
entry if absent, then append the answer. -/
def storeAppend (st : LearnedStore) (q : String) (a : String) : LearnedStore :=
  if st.any (fun p => p.1 = q) then
    st.map (fun p => if p.1 = q then (p.1, p.2 ++ [a]) else p)
  else st ++ [(q, [a])]

/-- Replies of `_process_learn_command`; `learned` carries the random
acknowledgement pick and both echoed texts. -/
inductive LearnReply
  | tooShort
  | tooLong
  | learned (ackPick : String) (question answer : String)
  | badFormat
deriving DecidableEq

/-- The rendered success acknowledgement of `_process_learn_command`,
echoing question and answer verbatim. -/
def learnAckText (ackPick question answer : String) : String :=
  ackPick ++ "\nТеперь на вопрос <i>«" ++ question ++ "»</i> я буду отвечать: <i>«"
    ++ answer ++ "»</i>"

/-- `_process_learn_command`: validation and mutation of the learned
store (`ackPick` models `random.choice(responses)`). -/
def process_learn_command (ackPick : String) (text : String) (store : LearnedStore) :
    LearnReply × LearnedStore :=
  match learnParse text with
  | some (q, a) =>
    if q.length < 2 ∨ a.length < 2 then (.tooShort, store)
    else if q.length > 100 ∨ a.length > 200 then (.tooLong, store)
    else (.learned ackPick q a, storeAppend store (pyLower q) a)
  | none => (.badFormat, store)

/-! ## The context heuristic (`_generate_context_response`)

`handle_message` appends the stripped message text to the user's
`conversation_history` before resolution, so the history handed to
this stage has the current message as its most recent entry. -/

/-- The two canned-reply families of `_generate_context_response` (the
concrete reply is a uniform `random.choice` inside each family). -/
inductive ContextReply
  | smalltalkReply
  | probingReply
deriving DecidableEq

/-- The greeting/small-talk cues of `_generate_context_response`. -/
def contextCues : List String := ["как дела", "как ты"]

/-- The interrogative tokens of `_generate_context_response`. -/
def questionWords : List String := ["кто", "что", "где", "когда", "почему", "как"]

/-- `_generate_context_response`: `history` is the user's stored
history (already containing the current message), `text` the current
message. -/
def generate_context_response (history : List String) (text : String) :
    Option ContextReply :=
  if history.length < 2 then none
  else
    let last_message := pyLower (history.getLastD "")
    if contextCues.any (fun q => pyInStr q last_message) then some .smalltalkReply
    else if pyInStr "?" text && questionWords.any (fun w => pyInStr w (pyLower text)) then
      some .probingReply
    else none

/-- The context stage as reached from `handle_message`: the current
message is appended to the prior history first
(`self.conversation_history[user_id].append(text)`), then the stage
runs. -/
def contextStage (prior : List String) (text : String) : Option ContextReply :=
  generate_context_response (prior ++ [text]) text

/-- The context-heuristic firing condition as the SPEC words it (for
comparison with the code): at least 2 stored entries, and either the
greeting/small-talk cue occurs in the entry immediately before the
current message, or the current message contains a question mark
together with an interrogative token. -/
def contextSpecFires (prior : List String) (text : String) : Bool :=
  decide ((prior ++ [text]).length ≥ 2) &&
  (contextCues.any (fun q => pyInStr q (pyLower (prior.getLastD ""))) ||
   (pyInStr "?" text && questionWords.any (fun w => pyInStr w (pyLower text))))

/-! ## Mood (`BotMood`, `cmd_admin_set_mood`, `_handle_mood_callback`) -/

/-- The `BotMood` enumeration. -/
inductive BotMood
  | neutral
  | happy
  | angry
  | flirty
  | sad
  | sarcastic
deriving DecidableEq

/-- The `BotMood(value)` enum constructor: the six value strings map to
their moods, anything else raises `ValueError`, modelled as `none`. -/
def botMoodOfString (s : String) : Option BotMood :=
  if s = "neutral" then some .neutral
  else if s = "happy" then some .happy
  else if s = "angry" then some .angry
  else if s = "flirty" then some .flirty
  else if s = "sad" then some .sad
  else if s = "sarcastic" then some .sarcastic
  else none

/-- Replies of the two mood-setting paths. -/
inductive SetMoodReply
  | denied
  | usage
  | moodSet (m : BotMood)
  | unknownMood (token : String)
deriving DecidableEq

/-- `cmd_admin_set_mood`: admin check, usage check, then
`BotMood(args[0].lower())` with the `ValueError` branch leaving the
mood untouched.  Returns the reply and the `current_mood` after the
call. -/
def cmd_admin_set_mood (isAdmin : Bool) (args : List String) (cur : BotMood) :
    SetMoodReply × BotMood :=
  if isAdmin = false then (.denied, cur)
  else
    match args with
    | [] => (.usage, cur)
    | tok :: _ =>
      let mood_str := pyLower tok
      match botMoodOfString mood_str with
      | some m => (.moodSet m, m)
      | none => (.unknownMood mood_str, cur)

/-- `_handle_mood_callback`: `data.replace("set_mood_", "")` then
`BotMood(mood_str)`, the `ValueError` branch leaving the mood
untouched. -/
def handle_mood_callback (data : String) (cur : BotMood) : SetMoodReply × BotMood :=
  let mood_str := pyRemoveAll "set_mood_" data
  match botMoodOfString mood_str with
  | some m => (.moodSet m, m)
  | none => (.unknownMood mood_str, cur)

/-! ## Persistence (`save_all_data` / `load_all_data`)

Datetimes appear only as values produced by `datetime.now().isoformat()`
and are round-tripped through `datetime.fromisoformat(...)` /
`.isoformat()`; on such canonical ISO strings that pair of library
calls is the identity, so timestamps are modelled by their canonical
ISO string.  The JSONB game blobs are passed through both backends
unchanged (`row['data']` / whole-file dump), so they are modelled by an
opaque serialisable value. -/

/-- Model of `datetime.fromisoformat` on the canonical ISO strings the
program stores (identity on the canonical representation). -/
def fromisoformat (s : String) : String := s

/-- Model of `datetime.isoformat` on the canonical representation. -/
def isoformat (d : String) : String := d

/-- One per-game state blob as persisted (opaque: both backends store
and return it unchanged). -/
abbrev GameBlob := String

/-- One entry of `self.user_data` (value of the per-user dictionary). -/
structure UserData where
  name : String
  username : Option String
  first_seen : String
  message_count : Int
  last_active : String
deriving DecidableEq

/-- The `self.stats` dictionary; `commands_used` is the inner
`defaultdict(int)` as an insertion-ordered association list. -/
structure Stats where
  total_messages : Int
  unique_users : Int
  games_played : Int
  commands_used : List (String × Int)
deriving DecidableEq

/-- The zeroed `self.stats` dictionary from `__init__` (also rebuilt by
`load_all_data` when no `main_stats` row exists). -/
def initialStats : Stats := ⟨0, 0, 0, []⟩

/-- The whole mutable in-memory state that `save_all_data` /
`load_all_data` persist: learned phrases, users, aggregate stats and
active game sessions. -/
structure Memory where
  learned_responses : LearnedStore
  user_data : List (String × UserData)
  stats : Stats
  active_games : List (String × GameBlob)
deriving DecidableEq

/-- The empty in-memory state of a fresh process (`__init__`). -/
def initialMemory : Memory := ⟨[], [], initialStats, []⟩

/-- One row of the relational `users` table (`user_id BIGINT PRIMARY
KEY` is the association key). -/
structure DbUser where
  name : String
  username : Option String
  first_seen : String
  message_count : Int
  last_active : String
deriving DecidableEq

/-- The relational backend: the `users` table, the two rows of the
keyed `stats` table (`'learned_responses'` and `'main_stats'`), and the
`active_games` table.  A JSONB column holds JSON text: with no type
codec registered on the pool, that is exactly what asyncpg exchanges
with the driver (a Python `str` on fetch, and only a `str` is accepted
as a parameter). -/
structure Db where
  users : List (Int × DbUser)
  learnedRow : Option String
  mainStatsRow : Option String
  activeGames : List (String × String)
deriving DecidableEq

/-- A freshly created relational schema (`init_db` creates empty
tables). -/
def emptyDb : Db := ⟨[], none, none, []⟩

/-- The column values written for one user by `save_all_data`'s
`INSERT INTO users ...` statement. -/
def dbUserOfMem (u : UserData) : DbUser :=
  ⟨u.name, u.username, fromisoformat u.first_seen, u.message_count,
   fromisoformat u.last_active⟩

/-- The in-memory user rebuilt from one row by `load_all_data`. -/
def memUserOfDb (u : DbUser) : UserData :=
  ⟨u.name, u.username, isoformat u.first_seen, u.message_count, isoformat u.last_active⟩

/-- The `ON CONFLICT (user_id) DO UPDATE` upsert of `save_all_data`:
on conflict every column except `first_seen` is replaced (the source's
update list omits `first_seen`). -/
def upsertUser (tbl : List (Int × DbUser)) (k : Int) (u : DbUser) :
    List (Int × DbUser) :=
  if tbl.any (fun p => p.1 = k) then
    tbl.map (fun p =>
      if p.1 = k then (k, ⟨u.name, u.username, p.2.first_seen, u.message_count, u.last_active⟩)
      else p)
  else tbl ++ [(k, u)]

/-- The user loop of `save_all_data`'s transaction: each key is parsed
with `int(user_id_str)` (a parse failure aborts the whole transaction,
modelled as `none`) and upserted.  The parameters of this statement
(ints, texts, datetimes) are all types asyncpg encodes natively. -/
def saveUsersPg : List (String × UserData) → List (Int × DbUser) →
    Option (List (Int × DbUser))
  | [], tbl => some tbl
  | (s, u) :: rest, tbl =>
    match pyParseInt s with
    | none => none
    | some k => saveUsersPg rest (upsertUser tbl k (dbUserOfMem u))

/-- The kind of Python value the program binds to a `jsonb` query
parameter. -/
inductive PyJsonbArg where
  | strVal (s : String)
  | dictVal
deriving DecidableEq

/-- Model of asyncpg's parameter encoding for a `jsonb` column when no
type codec has been registered on the pool (`init_db` registers none):
a Python `str` passes through as the JSON text, while any other value
— in particular every dict `save_all_data` passes — raises
`asyncpg.DataError`, modelled as `none`. -/
def asyncpgEncodeJsonb : PyJsonbArg → Option String
  | .strVal s => some s
  | .dictVal => none

/-- The `active_games` insert loop of `save_all_data`'s transaction:
each row binds the session dictionary `data` (a dict, not a str) to
the JSONB `data` parameter. -/
def saveGamesPg : List (String × GameBlob) → Option (List (String × String))
  | [] => some []
  | (k, _b) :: rest =>
    match asyncpgEncodeJsonb .dictVal with
    | none => none
    | some t => (saveGamesPg rest).map (fun l => (k, t) :: l)

/-- `save_all_data`, PostgreSQL branch: one transaction upserting every
user, then replacing the `'learned_responses'` row (binding
`dict(self.learned_responses)`, a dict, to the JSONB parameter), then
the `'main_stats'` row (binding `stats_copy`, a dict), then rewriting
`active_games` by `DELETE FROM active_games` followed by re-insertion
of every session dict.  Any raised exception aborts the whole
transaction (`none`): the database is left unchanged. -/
def save_all_data_pg (m : Memory) (db : Db) : Option Db :=
  match saveUsersPg m.user_data db.users with
  | none => none
  | some users =>
    match asyncpgEncodeJsonb .dictVal with
    | none => none
    | some learnedText =>
      match asyncpgEncodeJsonb .dictVal with
      | none => none
      | some statsText =>
        match saveGamesPg m.active_games with
        | none => none
        | some games => some ⟨users, some learnedText, some statsText, games⟩

/-- Result of `load_all_data`'s PostgreSQL branch.  With no codec
registered, asyncpg returns each JSONB column as its JSON text (a
Python `str`): a present `'learned_responses'` row makes
`defaultdict(list, row['value'])` raise `ValueError`; a present
`'main_stats'` row binds `self.stats` to the text, and when that text
contains the substring `commands_used` the assignment
`self.stats['commands_used'] = ...` raises `TypeError` (string
indices), otherwise the load completes with `self.stats` left as the
raw text (carried separately, outside the structured `Memory`). -/
inductive PgLoadResult where
  | ok (m : Memory)
  | okStatsText (learned : LearnedStore) (users : List (String × UserData))
      (games : List (String × String)) (statsText : String)
  | raised
deriving DecidableEq

/-- `load_all_data`, PostgreSQL branch: users are inserted under
`str(row['user_id'])`; then the `'learned_responses'` row, the
`'main_stats'` row and the `active_games` rows are read back as JSON
text, with the exception behaviour described on `PgLoadResult`
(`active_games` values are stored as the fetched text). -/
def load_all_data_pg (db : Db) (m : Memory) : PgLoadResult :=
  let ud := db.users.foldl
    (fun acc p => dictSet acc (toString p.1) (memUserOfDb p.2)) m.user_data
  match db.learnedRow with
  | some _ => .raised
  | none =>
    let ag := db.activeGames.foldl (fun acc p => dictSet acc p.1 p.2) m.active_games
    match db.mainStatsRow with
    | some t =>
      if pyInStr "commands_used" t then .raised
      else .okStatsText m.learned_responses ud ag t
    | none => .ok ⟨m.learned_responses, ud, initialStats, ag⟩

/-- The document backend: one file per structure (`learned.json`,
`users.json`, `stats.json`, `games.json`), `none` when the file does
not exist yet. -/
structure DocStore where
  learned_file : Option LearnedStore
  users_file : Option (List (String × UserData))
  stats_file : Option Stats
  games_file : Option (List (String × GameBlob))
deriving DecidableEq

/-- A data directory with no files yet. -/
def emptyDocStore : DocStore := ⟨none, none, none, none⟩

/-- Modelled from the spec: the `_save_json` helper called by
`save_all_data`'s JSON branch is absent from the source (only its four
call sites exist); per the spec the document backend writes one file
per structure, overwritten wholesale. -/
def save_all_data_json (m : Memory) (_d : DocStore) : DocStore :=
  ⟨some m.learned_responses, some m.user_data, some m.stats, some m.active_games⟩

/-- Modelled from the spec: the `_load_json` helper called by
`load_all_data`'s JSON branch is absent from the source (only its four
call sites exist); per the spec it reads each structure's file back,
falling back to the default passed at the call site (`defaultdict(list)`,
`{}`, the zeroed stats dictionary, `{}`) when the file is missing. -/
def load_all_data_json (d : DocStore) (_m : Memory) : Memory :=
  ⟨d.learned_file.getD [], d.users_file.getD [], d.stats_file.getD initialStats,
   d.games_file.getD []⟩

/-! ## Helper lemmas -/

theorem getLastD_append_single (l : List α) (a d : α) : (l ++ [a]).getLastD d = a := by
  induction l with
  | nil => rfl
  | cons x xs ih =>
    rw [List.cons_append, List.getLastD_cons]
    cases xs with
    | nil => rfl
    | cons y ys => simpa using ih

theorem zipReveal_get_eq (lc : Char) :
    ∀ (w g : List Char) (i : Nat), g.length = w.length → w.get? i = some lc →
      (List.zipWith (fun a b => if a = lc then lc else b) w g).get? i = some lc := by
  intro w
  induction w with
  | nil => intro g i _ h; simp at h
  | cons a w ih =>
    intro g i hlen h
    cases g with
    | nil => simp at hlen
    | cons b g =>
      cases i with
      | zero =>
        simp only [List.get?_cons_zero, Option.some.injEq] at h
        simp [List.zipWith, h]
      | succ n =>
        simp only [List.get?_cons_succ] at h ⊢
        simp only [List.zipWith]
        exact ih g n (by simpa using hlen) h

theorem zipReveal_get_ne (lc : Char) :
    ∀ (w g : List Char) (i : Nat) (c : Char), g.length = w.length →
      w.get? i = some c → c ≠ lc →
      (List.zipWith (fun a b => if a = lc then lc else b) w g).get? i = g.get? i := by
  intro w
  induction w with
  | nil => intro g i c _ h; simp at h
  | cons a w ih =>
    intro g i c hlen h hne
    cases g with
    | nil => simp at hlen
    | cons b g =>
      cases i with
      | zero =>
        simp only [List.get?_cons_zero, Option.some.injEq] at h
        subst h
        simp [List.zipWith, hne]
      | succ n =>
        simp only [List.get?_cons_succ] at h ⊢
        simp only [List.zipWith]
        exact ih g n c (by simpa using hlen) h hne

theorem nodup_append_single {l : List α} {a : α} (h : l.Nodup) (ha : a ∉ l) :
    (l ++ [a]).Nodup := by
  simp [List.nodup_append, h, ha]

theorem find_city_some_not_used {letter : Char} {used : List String} {city : String}
    (h : find_city letter used = some city) : city ∉ used := by
  unfold find_city at h
  cases hl : citiesDb.lookup letter with
  | none => rw [hl] at h; exact absurd h (by simp)
  | some cities =>
    rw [hl] at h
    have := List.find?_some h
    simpa using this

theorem find_city_none_iff (letter : Char) (used : List String) :
    find_city letter used = none ↔
      ∀ c ∈ allDbCities, strFirst c = letter → c ∈ used := by
  have f1 : strFirst "архангельск" = 'а' := rfl
  have f2 : strFirst "астрахань" = 'а' := rfl
  have f3 : strFirst "москва" = 'м' := rfl
  have f4 : strFirst "мурманск" = 'м' := rfl
  by_cases ha : letter = 'а'
  · subst ha
    simp [find_city, citiesDb, allDbCities, List.find?_eq_none, f1, f2, f3, f4]
  · by_cases hm : letter = 'м'
    · subst hm
      have hl : citiesDb.lookup 'м' = some ["москва", "мурманск"] := rfl
      simp [find_city, hl, allDbCities, List.find?_eq_none, f1, f2, f3, f4]
    · have ha' : ¬('а' = letter) := fun h => ha h.symm
      have hm' : ¬('м' = letter) := fun h => hm h.symm
      have hba : (letter == 'а') = false := beq_eq_false_iff_ne.mpr ha
      have hbm : (letter == 'м') = false := beq_eq_false_iff_ne.mpr hm
      have hl : citiesDb.lookup letter = none := by
        simp [citiesDb, List.lookup, hba, hbm]
      simp [find_city, hl, allDbCities, f1, f2, f3, f4, ha', hm']

/-! ## Claim theorems -/

/-- C1.  The riddle game is claimed to be single-attempt: a wrong
non-empty answer is claimed to destroy the session.  The code does
not: on a wrong answer `cmd_game_riddle` replies with the
partial-reveal hint but leaves `active_games[game_id]` in place, so
the same riddle can be retried — contradicting the session's own
prompt text ("У тебя одна попытка").  Here the session holding answer
"ель" receives the wrong answer "дуб": the reply is the hint, and the
session survives unchanged. -/
theorem riddle_wrong_answer_keeps_session :
    cmd_game_riddle (some ⟨"Зимой и летом одним цветом?", "ель"⟩) "дуб"
        ⟨"Висит груша — нельзя скушать. Что это?", "лампочка"⟩ 0
      = (.wrongHint "е**", some ⟨"Зимой и летом одним цветом?", "ель"⟩, 0) := by
  decide

/-- C5.  Rendering the gallows picture is NOT well-defined for every
attempts value a non-terminal transition can store: `_draw_hangman`
indexes a 2-element `stages` list with `6 - attempts`, so the third
overall gallows stage is out of range.  From the reachable session
(word "изида", 5 attempts left after one miss), a second miss stores
`attempts = 4` in a non-terminal session and the reply rendering hits
`stages[2]`, an `IndexError` (modelled as `none`). -/
theorem hangman_draw_stage_crash :
    cmd_game_hangman (some ⟨"изида".data, List.replicate 5 '_', 5, ['ю']⟩)
        (some "ж") [] 0
      = (.progress ⟨"изида".data, List.replicate 5 '_', 4, ['ю', 'ж']⟩,
         some ⟨"изида".data, List.replicate 5 '_', 4, ['ю', 'ж']⟩, 0) ∧
    hangmanProgressText ⟨"изида".data, List.replicate 5 '_', 4, ['ю', 'ж']⟩ = none ∧
    draw_hangman 4 = none := by
  decide

/-- C9.  For every game kind, invoking the command with an active
session but no argument token does not advance the session: it
replaces the slot with a freshly created session (new opening city,
new word, new secret number, new riddle drawn from the respective
random pick) and increments the games-played counter again. -/
theorem noarg_command_restarts_session (sc : CitiesState) (sh : HangmanState)
    (sg : GuessState) (sr : RiddleState) (firstPick : String) (pickWord : List Char)
    (pickNumber : Int) (pickRiddle : RiddleState) (gp : Nat) :
    cmd_game_cities (some sc) "" firstPick gp
        = (.started firstPick (strLast firstPick), some ⟨firstPick, [firstPick], true⟩, gp + 1) ∧
    cmd_game_hangman (some sh) none pickWord gp
        = (.started pickWord,
           some ⟨pickWord, List.replicate pickWord.length '_', 6, []⟩, gp + 1) ∧
    cmd_game_guess (some sg) none pickNumber gp
        = (.started, some ⟨pickNumber, 0⟩, gp + 1) ∧
    cmd_game_riddle (some sr) "" pickRiddle gp
        = (.started pickRiddle.question, some pickRiddle, gp + 1) := by
  refine ⟨?_, rfl, rfl, ?_⟩
  · simp [cmd_game_cities, citiesStart]
  · simp [cmd_game_riddle, riddleStart]

/-- C3 counterexample.  The claim says the greeting/small-talk cue is
looked for in the entry immediately BEFORE the current message.  The
code reads `history[-1]`, which (the current message having been
appended first) is the current message itself: with prior history
["привет"] and current message "как дела" the stage fires although the
claim's condition (formalised by `contextSpecFires`) is false. -/
theorem context_cue_read_from_current_message :
    (contextStage ["привет"] "как дела").isSome = true ∧
    contextSpecFires ["привет"] "как дела" = false := by
  decide

/-- C3 amended.  The context stage produces a reply if and only if the
user has at least one stored message before the current one, and
either the greeting/small-talk cue occurs in the MOST RECENT stored
entry — which is the current message itself, since `handle_message`
appends the current message before resolution — or the current message
contains a question mark together with an interrogative token. -/
theorem context_stage_fires_iff (prior : List String) (text : String) :
    (contextStage prior text).isSome =
      (decide (1 ≤ prior.length) &&
       (contextCues.any (fun q => pyInStr q (pyLower text)) ||
        (pyInStr "?" text && questionWords.any (fun w => pyInStr w (pyLower text))))) := by
  unfold contextStage generate_context_response
  rw [getLastD_append_single]
  rcases Nat.lt_or_ge prior.length 1 with h | h
  · have h0 : prior.length = 0 := by omega
    have hlt : (prior ++ [text]).length < 2 := by simp [h0]
    rw [if_pos hlt]
    have : decide (1 ≤ prior.length) = false := by simp [h0]
    simp [this]
  · have hlt : ¬((prior ++ [text]).length < 2) := by simp; omega
    rw [if_neg hlt]
    have hd : decide (1 ≤ prior.length) = true := by simpa using h
    rw [hd, Bool.true_and]
    by_cases hc : contextCues.any (fun q => pyInStr q (pyLower text)) = true
    · simp [hc]
    · have hc' : contextCues.any (fun q => pyInStr q (pyLower text)) = false :=
        Bool.eq_false_iff.mpr hc
      rw [if_neg (by simp [hc'])]
      rw [hc', Bool.false_or]
      by_cases hq : (pyInStr "?" text &&
          questionWords.any (fun w => pyInStr w (pyLower text))) = true
      · simp [hq]
      · have hq' := Bool.eq_false_iff.mpr hq
        simp [hq']

/-- C10.  On both mood-mutation paths — the admin `/set_mood` command
and the `set_mood_*` callback — an unrecognized mood token is rejected
and the current mood is left unchanged; a missing argument or a
non-admin caller also leaves it unchanged; and when the token is
recognized the new mood is the corresponding enumerated value (the
`BotMood` type has exactly the six enumerated values, so the mood is
always one of them). -/
theorem unknown_mood_token_rejected (isAdmin : Bool) (tok : String)
    (rest args : List String) (cur : BotMood) (data : String) :
    (botMoodOfString (pyLower tok) = none →
      (cmd_admin_set_mood isAdmin (tok :: rest) cur).2 = cur) ∧
    (botMoodOfString (pyRemoveAll "set_mood_" data) = none →
      (handle_mood_callback data cur).2 = cur) ∧
    ((cmd_admin_set_mood isAdmin [] cur).2 = cur) ∧
    ((cmd_admin_set_mood false args cur).2 = cur) ∧
    (∀ m, botMoodOfString (pyLower tok) = some m →
      (cmd_admin_set_mood true (tok :: rest) cur).2 = m) ∧
    (∀ m, botMoodOfString (pyRemoveAll "set_mood_" data) = some m →
      (handle_mood_callback data cur).2 = m) := by
  refine ⟨?_, ?_, ?_, ?_, ?_, ?_⟩
  · intro h
    cases hA : isAdmin <;> simp [cmd_admin_set_mood, hA, h]
  · intro h
    simp [handle_mood_callback, h]
  · cases hA : isAdmin <;> simp [cmd_admin_set_mood, hA]
  · cases args <;> simp [cmd_admin_set_mood]
  · intro m h
    simp [cmd_admin_set_mood, h]
  · intro m h
    simp [handle_mood_callback, h]

/-- C10 witness: the unrecognized token "grumpy" (command path) and
callback payload "set_mood_grumpy" leave the neutral mood unchanged,
and the recognized token "HAPPY" sets the happy mood. -/
theorem unknown_mood_token_rejected_witness :
    (cmd_admin_set_mood true ["grumpy"] BotMood.neutral).2 = BotMood.neutral ∧
    (handle_mood_callback "set_mood_grumpy" BotMood.neutral).2 = BotMood.neutral ∧
    (cmd_admin_set_mood true ["HAPPY"] BotMood.neutral).2 = BotMood.happy := by
  refine ⟨?_, ?_, ?_⟩
  · exact (unknown_mood_token_rejected true "grumpy" [] [] BotMood.neutral
      "set_mood_grumpy").1 (by decide)
  · exact (unknown_mood_token_rejected true "grumpy" [] [] BotMood.neutral
      "set_mood_grumpy").2.1 (by decide)
  · exact (unknown_mood_token_rejected true "HAPPY" [] [] BotMood.neutral
      "x").2.2.2.2.1 BotMood.happy (by decide)

/-- C7.  NumberGuess transition: a non-integer argument is rejected
with the session and attempt count unchanged; a valid integer guess
increments the attempt count by exactly one; on mismatch the session
is retained with the same secret and the hint direction is consistent
with the secret (guess below the secret yields the "больше"/higher
hint, guess above it the "меньше"/lower hint); on match the reply
discloses the number and the attempt count and the session is
destroyed. -/
theorem guess_step_spec (game : GuessState) (tok : String) (pickNumber : Int) (gp : Nat) :
    (pyParseInt tok = none →
      cmd_game_guess (some game) (some tok) pickNumber gp = (.pleaseNumber, some game, gp)) ∧
    (∀ g, pyParseInt tok = some g →
      (g = game.number →
        cmd_game_guess (some game) (some tok) pickNumber gp
          = (.correct game.number (game.attempts + 1), none, gp)) ∧
      (g < game.number →
        cmd_game_guess (some game) (some tok) pickNumber gp
          = (.hintHigher (game.attempts + 1), some ⟨game.number, game.attempts + 1⟩, gp)) ∧
      (game.number < g →
        cmd_game_guess (some game) (some tok) pickNumber gp
          = (.hintLower (game.attempts + 1), some ⟨game.number, game.attempts + 1⟩, gp))) := by
  constructor
  · intro h
    simp [cmd_game_guess, h]
  · intro g hg
    refine ⟨?_, ?_, ?_⟩
    · intro he
      simp [cmd_game_guess, hg, he]
    · intro hlt
      simp [cmd_game_guess, hg, hlt, ne_of_lt hlt]
    · intro hgt
      have hne : ¬(g = game.number) := by omega
      have hnlt : ¬(g < game.number) := by omega
      simp [cmd_game_guess, hg, hne, hnlt]

/-- C7 witness: with secret 50 and 3 attempts so far, the non-integer
token "x" changes nothing, the guess 17 yields the higher hint with
attempt count 4, the guess 99 yields the lower hint, and the guess 50
wins after 4 attempts. -/
theorem guess_step_spec_witness :
    cmd_game_guess (some ⟨50, 3⟩) (some "x") 7 0 = (.pleaseNumber, some ⟨50, 3⟩, 0) ∧
    cmd_game_guess (some ⟨50, 3⟩) (some "17") 7 0 = (.hintHigher 4, some ⟨50, 4⟩, 0) ∧
    cmd_game_guess (some ⟨50, 3⟩) (some "99") 7 0 = (.hintLower 4, some ⟨50, 4⟩, 0) ∧
    cmd_game_guess (some ⟨50, 3⟩) (some "50") 7 0 = (.correct 50 4, none, 0) := by
  refine ⟨?_, ?_, ?_, ?_⟩
  · exact (guess_step_spec ⟨50, 3⟩ "x" 7 0).1 (by decide)
  · exact ((guess_step_spec ⟨50, 3⟩ "17" 7 0).2 17 (by decide)).2.1 (by decide)
  · exact ((guess_step_spec ⟨50, 3⟩ "99" 7 0).2 99 (by decide)).2.2 (by decide)
  · exact ((guess_step_spec ⟨50, 3⟩ "50" 7 0).2 50 (by decide)).1 (by decide)

/-- C8.  The teach directive: a message the arrow grammar does not
match yields the distinct format-error reply with the Phrase Store
unmutated; when it parses, the entry is stored exactly when the
question length lies in [2,100] and the answer length in [2,200]
(violations yield the respective rejection replies, store unmutated);
on success the answer is appended under the lower-cased question and
the acknowledgement (`learnAckText`) echoes both question and answer
verbatim. -/
theorem learn_directive_validation (ackPick text : String) (store : LearnedStore) :
    (learnParse text = none →
      process_learn_command ackPick text store = (.badFormat, store)) ∧
    (∀ q a, learnParse text = some (q, a) →
      ((q.length < 2 ∨ a.length < 2) →
        process_learn_command ackPick text store = (.tooShort, store)) ∧
      (2 ≤ q.length → 2 ≤ a.length → (100 < q.length ∨ 200 < a.length) →
        process_learn_command ackPick text store = (.tooLong, store)) ∧
      (2 ≤ q.length → q.length ≤ 100 → 2 ≤ a.length → a.length ≤ 200 →
        process_learn_command ackPick text store
          = (.learned ackPick q a, storeAppend store (pyLower q) a) ∧
        learnAckText ackPick q a
          = ackPick ++ "\nТеперь на вопрос <i>«" ++ q ++ "»</i> я буду отвечать: <i>«"
              ++ a ++ "»</i>")) := by
  constructor
  · intro h
    simp [process_learn_command, h]
  · intro q a hpa
    refine ⟨?_, ?_, ?_⟩
    · intro hshort
      simp [process_learn_command, hpa, hshort]
    · intro hq ha hlong
      have hns : ¬(q.length < 2 ∨ a.length < 2) := by omega
      simp [process_learn_command, hpa, hns]
      omega
    · intro hq hqu ha hau
      have hns : ¬(q.length < 2 ∨ a.length < 2) := by omega
      have hnl : ¬(q.length > 100 ∨ a.length > 200) := by omega
      exact ⟨by simp [process_learn_command, hpa, hns, hnl], rfl⟩

/-- C8 witness: "учись изида -> привет" parses into question "изида"
and answer "привет" (both lengths in range) and is stored; the
one-character answer in "учись изида -> я" is rejected without
mutation; "учись без стрелки" has no arrow and yields the format
error without mutation. -/
theorem learn_directive_validation_witness :
    process_learn_command "Запомнила! 🧠" "учись изида -> привет" []
      = (.learned "Запомнила! 🧠" "изида" "привет", [("изида", ["привет"])]) ∧
    process_learn_command "Запомнила! 🧠" "учись изида -> я" [("изида", ["привет"])]
      = (.tooShort, [("изида", ["привет"])]) ∧
    process_learn_command "Запомнила! 🧠" "учись без стрелки" []
      = (.badFormat, []) := by
  refine ⟨?_, ?_, ?_⟩
  · exact (((learn_directive_validation "Запомнила! 🧠" "учись изида -> привет" []).2
      "изида" "привет" (by decide)).2.2 (by decide) (by decide) (by decide) (by decide)).1
  · exact ((learn_directive_validation "Запомнила! 🧠" "учись изида -> я"
      [("изида", ["привет"])]).2 "изида" "я" (by decide)).1 (by decide)
  · exact (learn_directive_validation "Запомнила! 🧠" "учись без стрелки" []).1 (by decide)

/-- C4.  Hangman bookkeeping on a reachable session (guessed row as
long as the word, at least one attempt left, at least one blank):
a non-single-letter guess is rejected with the session unchanged; an
already-guessed letter changes neither attempts nor reveals (session
unchanged); a miss decrements attempts by exactly one (ending the game
with the word disclosed exactly when attempts reach 0); a hit leaves
attempts unchanged and reveals exactly the matching positions (ending
the game with the word disclosed exactly when no blank remains); and
the session is destroyed precisely when all positions are revealed or
the attempt counter reaches 0. -/
theorem hangman_guess_bookkeeping (game : HangmanState) (tok : String)
    (pickWord : List Char) (gp : Nat)
    (hlen : game.guessed.length = game.word.length)
    (hatt : 1 ≤ game.attempts)
    (hblank : '_' ∈ game.guessed) :
    ((pyLower tok).length ≠ 1 ∨ pyIsAlphaStr (pyLower tok) = false →
      cmd_game_hangman (some game) (some tok) pickWord gp
        = (.oneLetterPlease, some game, gp)) ∧
    ((pyLower tok).length = 1 → pyIsAlphaStr (pyLower tok) = true →
      (strFirst (pyLower tok) ∈ game.used_letters →
        cmd_game_hangman (some game) (some tok) pickWord gp
          = (.letterWasUsed (strFirst (pyLower tok)), some game, gp)) ∧
      (strFirst (pyLower tok) ∉ game.used_letters →
        (strFirst (pyLower tok) ∉ game.word →
          (game.attempts = 1 →
            cmd_game_hangman (some game) (some tok) pickWord gp
              = (.lose game.word, none, gp)) ∧
          (1 < game.attempts →
            cmd_game_hangman (some game) (some tok) pickWord gp
              = (.progress ⟨game.word, game.guessed, game.attempts - 1,
                            game.used_letters ++ [strFirst (pyLower tok)]⟩,
                 some ⟨game.word, game.guessed, game.attempts - 1,
                       game.used_letters ++ [strFirst (pyLower tok)]⟩, gp))) ∧
        (strFirst (pyLower tok) ∈ game.word →
          ('_' ∉ hangmanReveal game (strFirst (pyLower tok)) →
            cmd_game_hangman (some game) (some tok) pickWord gp
              = (.win game.word, none, gp)) ∧
          ('_' ∈ hangmanReveal game (strFirst (pyLower tok)) →
            cmd_game_hangman (some game) (some tok) pickWord gp
              = (.progress ⟨game.word, hangmanReveal game (strFirst (pyLower tok)),
                            game.attempts,
                            game.used_letters ++ [strFirst (pyLower tok)]⟩,
                 some ⟨game.word, hangmanReveal game (strFirst (pyLower tok)),
                       game.attempts,
                       game.used_letters ++ [strFirst (pyLower tok)]⟩, gp)) ∧
          (∀ i, game.word.get? i = some (strFirst (pyLower tok)) →
            (hangmanReveal game (strFirst (pyLower tok))).get? i
              = some (strFirst (pyLower tok))) ∧
          (∀ i c, game.word.get? i = some c → c ≠ strFirst (pyLower tok) →
            (hangmanReveal game (strFirst (pyLower tok))).get? i = game.guessed.get? i)) ∧
        ((cmd_game_hangman (some game) (some tok) pickWord gp).2.1 = none ↔
          ('_' ∉ (if strFirst (pyLower tok) ∈ game.word then
                    hangmanReveal game (strFirst (pyLower tok)) else game.guessed) ∨
           (if strFirst (pyLower tok) ∈ game.word then game.attempts
            else game.attempts - 1) = 0)))) := by
  constructor
  · intro h
    rcases h with h | h
    · simp [cmd_game_hangman, h]
    · by_cases h1 : (pyLower tok).length = 1 <;> simp [cmd_game_hangman, h1, h]
  · intro h1 ha
    have hvalid : ¬((pyLower tok).length ≠ 1 ∨ pyIsAlphaStr (pyLower tok) = false) := by
      simp [h1, ha]
    constructor
    · intro hu
      simp [cmd_game_hangman, hvalid, hu]
    · intro hu
      have hadd : setAdd game.used_letters (strFirst (pyLower tok))
          = game.used_letters ++ [strFirst (pyLower tok)] := by
        simp [setAdd, hu]
      refine ⟨?_, ?_, ?_⟩
      · intro hmiss
        constructor
        · intro h1a
          simp [cmd_game_hangman, hvalid, hu, hmiss, hblank, h1a]
        · intro hgt
          have hle : ¬(game.attempts - 1 ≤ 0) := by omega
          simp [cmd_game_hangman, hvalid, hu, hmiss, hblank, hle, hadd]
      · intro hhit
        have hle : ¬(game.attempts ≤ 0) := by omega
        refine ⟨?_, ?_, ?_, ?_⟩
        · intro hnb
          simp [cmd_game_hangman, hvalid, hu, hhit, hnb]
        · intro hb
          simp [cmd_game_hangman, hvalid, hu, hhit, hb, hle, hadd]
        · intro i hi
          exact zipReveal_get_eq (strFirst (pyLower tok)) game.word game.guessed i hlen hi
        · intro i c hi hne
          exact zipReveal_get_ne (strFirst (pyLower tok)) game.word game.guessed i c hlen hi hne
      · by_cases hhit : strFirst (pyLower tok) ∈ game.word
        · by_cases hb : '_' ∈ hangmanReveal game (strFirst (pyLower tok))
          · have hle : ¬(game.attempts ≤ 0) := by omega
            have hz : ¬(game.attempts = 0) := by omega
            simp [cmd_game_hangman, hvalid, hu, hhit, hb, hle, hz]
          · simp [cmd_game_hangman, hvalid, hu, hhit, hb]
        · by_cases h1a : game.attempts = 1
          · simp [cmd_game_hangman, hvalid, hu, hhit, hblank, h1a]
          · have hgt : 1 < game.attempts := by omega
            have hle : ¬(game.attempts - 1 ≤ 0) := by omega
            have hz : ¬(game.attempts - 1 = 0) := by omega
            simp [cmd_game_hangman, hvalid, hu, hhit, hblank, hle, hz]

/-- C4 witness: word "изида" with all five positions blank, 6 attempts
left and no guessed letters; the hit "з" reveals position 1 and leaves
attempts at 6; then the miss "ю" decrements attempts to 5; repeating
"ю" changes nothing. -/
theorem hangman_guess_bookkeeping_witness :
    cmd_game_hangman (some ⟨"изида".data, List.replicate 5 '_', 6, []⟩) (some "з") [] 0
      = (.progress ⟨"изида".data, ['_', 'з', '_', '_', '_'], 6, ['з']⟩,
         some ⟨"изида".data, ['_', 'з', '_', '_', '_'], 6, ['з']⟩, 0) ∧
    cmd_game_hangman (some ⟨"изида".data, ['_', 'з', '_', '_', '_'], 6, ['з']⟩)
        (some "ю") [] 0
      = (.progress ⟨"изида".data, ['_', 'з', '_', '_', '_'], 5, ['з', 'ю']⟩,
         some ⟨"изида".data, ['_', 'з', '_', '_', '_'], 5, ['з', 'ю']⟩, 0) ∧
    cmd_game_hangman (some ⟨"изида".data, ['_', 'з', '_', '_', '_'], 5, ['з', 'ю']⟩)
        (some "ю") [] 0
      = (.letterWasUsed 'ю',
         some ⟨"изида".data, ['_', 'з', '_', '_', '_'], 5, ['з', 'ю']⟩, 0) := by
    refine ⟨?_, ?_, ?_⟩
    · have h := ((hangman_guess_bookkeeping ⟨"изида".data, List.replicate 5 '_', 6, []⟩
        "з" [] 0 (by decide) (by decide) (by decide)).2 (by decide) (by decide)).2
        (by decide)
      have h2 := (h.2.1 (by decide)).2.1 (by decide)
      exact h2.trans (by decide)
    · have h := ((hangman_guess_bookkeeping ⟨"изида".data, ['_', 'з', '_', '_', '_'], 6, ['з']⟩
        "ю" [] 0 (by decide) (by decide) (by decide)).2 (by decide) (by decide)).2
        (by decide)
      have h2 := (h.1 (by decide)).2 (by decide)
      exact h2.trans (by decide)
    · exact ((hangman_guess_bookkeeping ⟨"изида".data, ['_', 'з', '_', '_', '_'], 5, ['з', 'ю']⟩
        "ю" [] 0 (by decide) (by decide) (by decide)).2 (by decide) (by decide)).1
        (by decide)

/-- C6.  CityChain on a reachable session (non-empty last city,
duplicate-free used-set) and a non-empty player token: a repeated city
is rejected with the session retained unchanged; a city whose first
letter differs from the last letter of the previous city is rejected
with the session retained; an accepted city (first letter equal to the
required letter) either triggers a bot move — the used-set grows by
the player's city and the bot's reply, staying duplicate-free — or,
when no unused database city starts with the required letter (the
stated characterisation of `find_city` returning `None`), the player
wins and the session is destroyed; and a fresh session starts with a
duplicate-free singleton used-set. -/
theorem cities_move_invariants (game : CitiesState) (userCity firstPick : String)
    (gp : Nat) (hlast : game.last_city ≠ "") (hnd : game.used_cities.Nodup)
    (harg : userCity ≠ "") :
    (pyLower userCity ∈ game.used_cities →
      cmd_game_cities (some game) userCity firstPick gp = (.alreadyUsed, some game, gp)) ∧
    (pyLower userCity ∉ game.used_cities →
      (strFirst (pyLower userCity) ≠ strLast game.last_city →
        cmd_game_cities (some game) userCity firstPick gp
          = (.needLetter (strLast game.last_city), some game, gp)) ∧
      (strFirst (pyLower userCity) = strLast game.last_city →
        (∀ next,
          find_city (strLast (pyLower userCity))
              (game.used_cities ++ [pyLower userCity]) = some next →
          cmd_game_cities (some game) userCity firstPick gp
            = (.botMove userCity next (strLast next),
               some ⟨next, (game.used_cities ++ [pyLower userCity]) ++ [next], false⟩, gp) ∧
          ((game.used_cities ++ [pyLower userCity]) ++ [next]).Nodup) ∧
        (find_city (strLast (pyLower userCity))
              (game.used_cities ++ [pyLower userCity]) = none →
          cmd_game_cities (some game) userCity firstPick gp
            = (.playerWins userCity, none, gp)))) ∧
    (find_city (strLast (pyLower userCity)) (game.used_cities ++ [pyLower userCity]) = none
      ↔ ∀ c ∈ allDbCities, strFirst c = strLast (pyLower userCity) →
          c ∈ game.used_cities ++ [pyLower userCity]) ∧
    (cmd_game_cities none userCity firstPick gp
        = (.started firstPick (strLast firstPick), some ⟨firstPick, [firstPick], true⟩, gp + 1)
      ∧ ([firstPick] : List String).Nodup) := by
  refine ⟨?_, ?_, ?_, ?_, ?_⟩
  · intro hmem
    simp [cmd_game_cities, harg, hmem]
  · intro hmem
    have hadd : setAdd game.used_cities (pyLower userCity)
        = game.used_cities ++ [pyLower userCity] := by
      simp [setAdd, hmem]
    constructor
    · intro hne
      simp [cmd_game_cities, harg, hmem, hlast, hne]
    · intro heq
      have hcond : ¬(game.last_city ≠ "" ∧
          strFirst (pyLower userCity) ≠ strLast game.last_city) := by
        simp [heq]
      constructor
      · intro next hfind
        have hnu := find_city_some_not_used hfind
        constructor
        · simp [cmd_game_cities, harg, hmem, hcond, hadd, hfind, setAdd, hnu]
        · exact nodup_append_single (nodup_append_single hnd hmem) hnu
      · intro hfind
        simp [cmd_game_cities, harg, hmem, hcond, hadd, hfind]
  · exact find_city_none_iff _ _
  · simp [cmd_game_cities, citiesStart]
  · simp

/-- C6 witness: with last city "москва" (used-set {"москва"}), the
repeat "МОСКВА" is rejected unchanged; "киев" is rejected for its
first letter with the session retained; the accepted "Астана" pulls
the bot reply "архангельск" and the three-element used-set stays
duplicate-free; and the accepted "Архангельск" (ending in "к", a
letter with no database city) makes the player win and destroys the
session. -/
theorem cities_move_invariants_witness :
    cmd_game_cities (some ⟨"москва", ["москва"], true⟩) "МОСКВА" "астана" 7
      = (.alreadyUsed, some ⟨"москва", ["москва"], true⟩, 7) ∧
    cmd_game_cities (some ⟨"москва", ["москва"], true⟩) "киев" "астана" 7
      = (.needLetter 'а', some ⟨"москва", ["москва"], true⟩, 7) ∧
    (cmd_game_cities (some ⟨"москва", ["москва"], true⟩) "Астана" "астана" 7
      = (.botMove "Астана" "архангельск" 'к',
         some ⟨"архангельск", ["москва", "астана", "архангельск"], false⟩, 7) ∧
     (["москва", "астана", "архангельск"] : List String).Nodup) ∧
    cmd_game_cities (some ⟨"москва", ["москва"], true⟩) "Архангельск" "астана" 7
      = (.playerWins "Архангельск", none, 7) := by
  refine ⟨?_, ?_, ?_, ?_⟩
  · exact (cities_move_invariants ⟨"москва", ["москва"], true⟩ "МОСКВА" "астана" 7
      (by decide) (by decide) (by decide)).1 (by decide)
  · exact ((cities_move_invariants ⟨"москва", ["москва"], true⟩ "киев" "астана" 7
      (by decide) (by decide) (by decide)).2.1 (by decide)).1 (by decide)
  · have h := (((cities_move_invariants ⟨"москва", ["москва"], true⟩ "Астана" "астана" 7
      (by decide) (by decide) (by decide)).2.1 (by decide)).2 (by decide)).1
      "архангельск" (by decide)
    exact ⟨h.1.trans (by decide), by decide⟩
  · exact (((cities_move_invariants ⟨"москва", ["москва"], true⟩ "Архангельск" "астана" 7
      (by decide) (by decide) (by decide)).2.1 (by decide)).2 (by decide)).2 (by decide)

/-- C2.  The claimed relational round-trip is impossible in the code:
`init_db` registers no JSON type codec on the pool, so every JSONB
insert of `save_all_data`'s PostgreSQL branch binds a Python dict
(`dict(self.learned_responses)`, `stats_copy`, each game `data`) and
raises `asyncpg.DataError`, aborting the whole transaction — for every
in-memory state and every prior database state, nothing is ever
committed for `load_all_data` to reproduce.  Symmetrically, had a
JSONB row existed, `load_all_data` itself would raise rebuilding
`defaultdict(list, ...)` from the fetched JSON text, or assigning
`self.stats['commands_used']` on it.  The document (JSON) backend, by
contrast, does round-trip as the claim states. -/
theorem relational_save_never_commits :
    (∀ (m : Memory) (db : Db), save_all_data_pg m db = none) ∧
    load_all_data_pg ⟨[], some "\x7b\x7d", none, []⟩ initialMemory = .raised ∧
    load_all_data_pg
        ⟨[], none,
         some "\x7b\x22total_messages\x22: 5, \x22commands_used\x22: \x7b\x7d\x7d",
         []⟩ initialMemory = .raised ∧
    (∀ m : Memory,
      load_all_data_json (save_all_data_json m emptyDocStore) initialMemory = m) := by
  refine ⟨?_, by decide, by decide, ?_⟩
  · intro m db
    unfold save_all_data_pg
    cases saveUsersPg m.user_data db.users <;> rfl
  · intro m
    obtain ⟨lr, ud, st, ag⟩ := m
    rfl

end Isida
